import Mathlib

/-!
Verification of the Creation audiobook-library scripts.

The repository holds three Python batch workflows over a filesystem:
the Mover (LibroFMToPlexAudiobookMover.py), the Organizer
(MoveFromOpenAudibleToPlex.py) and the Cover Resolver
(CoverArtRetriever.py).  This file gives a shallow embedding of their
data model and per-run behaviour and proves the specified properties.

Filesystem model: a directory is an association list from filename to
file (size and content bytes abstracted); a library tree is an
association list from folder name to directory.  Network calls are
modelled by an explicit environment mapping request parameters to
responses; each kind of failure (transport error, non-success status,
JSON decode error) is a single error constructor, matching the catch-all
exception handlers in the source.
-/

namespace Creation

/-- A regular file: its byte size (stat based duplicate detection reads
this) and its content, abstracted to a single natural number. -/
structure FSFile where
  size : Nat
  bytes : Nat
deriving DecidableEq

/-- A flat directory: filenames mapped to files. -/
abbrev Dir := List (String × FSFile)

/-- A library tree: one level of book folders, each a flat directory. -/
abbrev Tree := List (String × Dir)

/-- First value stored under a key, if any. -/
def lookupKey {α : Type} : List (String × α) → String → Option α
  | [], _ => none
  | (k, v) :: rest, key => if k = key then some v else lookupKey rest key

/-- Remove every entry stored under a key. -/
def eraseKey {α : Type} (l : List (String × α)) (key : String) : List (String × α) :=
  l.filter (fun p => p.1 != key)

/-- Store a value under a key, replacing any previous entry (models
overwriting file creation and mkdir with exist_ok). -/
def setKey {α : Type} (l : List (String × α)) (key : String) (v : α) : List (String × α) :=
  eraseKey l key ++ [(key, v)]

/-- Number of entries stored under a key. -/
def countKey {α : Type} : List (String × α) → String → Nat
  | [], _ => 0
  | (k, _) :: rest, key => (if k = key then 1 else 0) + countKey rest key

/-- Content of a folder of the tree; a missing folder reads as empty,
matching path existence checks through a missing directory. -/
def getDir (t : Tree) (name : String) : Dir :=
  (lookupKey t name).getD []

/-- Lexicographic comparison of character lists by code point; models
the Python string order used by sorted. -/
def charListLe : List Char → List Char → Bool
  | [], _ => true
  | _ :: _, [] => false
  | a :: as, b :: bs =>
    if a.toNat < b.toNat then true
    else if b.toNat < a.toNat then false
    else charListLe as bs

/-- String order backing the sort, at the character-list level. -/
def strLe (a b : String) : Bool :=
  charListLe a.data b.data

/-- Stable insertion into a list ordered by a string key; together with
sortBy this models the Python sorted builtin. -/
def insertBy {α : Type} (key : α → String) (x : α) : List α → List α
  | [] => [x]
  | y :: ys => if strLe (key x) (key y) then x :: y :: ys else y :: insertBy key x ys

/-- Model of the Python sorted builtin (a stable sort by string key). -/
def sortBy {α : Type} (key : α → String) : List α → List α
  | [] => []
  | x :: xs => insertBy key x (sortBy key xs)

/-- Left-to-right replacement of every non-overlapping occurrence of a
pattern, fuel-driven; models Python str.replace scanning. -/
def replaceAllAux (rep pat : List Char) : Nat → List Char → List Char
  | 0, s => s
  | _ + 1, [] => []
  | fuel + 1, c :: cs =>
    if pat.isPrefixOf (c :: cs) then rep ++ replaceAllAux rep pat fuel ((c :: cs).drop pat.length)
    else c :: replaceAllAux rep pat fuel cs

/-- Model of the Python str.replace method: replace every
non-overlapping occurrence of pat by rep, scanning left to right. -/
def pyReplace (s pat rep : String) : String :=
  if pat.data = [] then s
  else ⟨replaceAllAux rep.data pat.data s.data.length s.data⟩

/-- Selection test of the glob pattern star-dot-m4b used by the Mover
and the Organizer: the name ends with the .m4b suffix. -/
def isM4b (name : String) : Bool :=
  List.isSuffixOf ".m4b".data name.data

/-- Model of pathlib Path.stem for the selected audio files: the base
name with the final .m4b suffix stripped (a pure dotfile keeps its
name, as in pathlib). -/
def stem (name : String) : String :=
  if isM4b name ∧ 4 < name.data.length then ⟨name.data.take (name.data.length - 4)⟩ else name

/-- Rendering of path concatenation for log lines. -/
def joinPath (a b : String) : String := a ++ "/" ++ b

/-! The Mover (LibroFMToPlexAudiobookMover.py, move_audiobooks). -/

/-- Result of one Mover run: the source directory and destination tree
afterwards (none mirrors a missing directory), the log lines written by
move_audiobooks, and the names of the items iterated by the loop. -/
structure MoverResult where
  src : Option Dir
  dst : Option Tree
  log : List String
  processed : List String
deriving DecidableEq

/-- One iteration of the Mover loop over the triple of current source
directory, destination tree and log: logs the three announcement lines,
then either only announces the dry run, or creates the book folder and
destructively moves the file (overwriting any previous entry). -/
def moverStep (dstRoot : String) (dry : Bool) (st : Dir × Tree × List String)
    (item : String × FSFile) : Dir × Tree × List String :=
  let bookFolder := joinPath dstRoot (stem item.1)
  let destinationFile := joinPath bookFolder item.1
  let lg := st.2.2 ++
    ["📚 " ++ item.1,
     "   → Creating folder: " ++ bookFolder,
     "   → Moving to: " ++ destinationFile]
  if dry then
    (st.1, st.2.1, lg ++ ["   [DRY RUN - no changes made]", ""])
  else
    (eraseKey st.1 item.1,
     setKey st.2.1 (stem item.1) (setKey (getDir st.2.1 (stem item.1)) item.1 item.2),
     lg ++ ["   ✅ Successfully moved!", ""])

/-- The move_audiobooks entry point: validates that source and
destination exist, selects the .m4b files, and moves each into a
per-book destination folder. -/
def move_audiobooks (srcRoot dstRoot : String) (src? : Option Dir) (dst? : Option Tree)
    (dry : Bool) : MoverResult :=
  match src?, dst? with
  | none, _ =>
    { src := none, dst := dst?,
      log := ["❌ Error: Source folder does not exist: " ++ srcRoot], processed := [] }
  | some src, none =>
    { src := some src, dst := none,
      log := ["❌ Error: Destination folder does not exist: " ++ dstRoot], processed := [] }
  | some src, some dst =>
    let m4b_files := src.filter (fun p => isM4b p.1)
    if m4b_files.isEmpty then
      { src := some src, dst := some dst,
        log := ["ℹ️  No .m4b files found in " ++ srcRoot], processed := [] }
    else
      let lg0 := ["Found " ++ toString m4b_files.length ++ " audiobook(s) to process:", ""]
      let fin := m4b_files.foldl (moverStep dstRoot dry) (src, dst, lg0)
      { src := some fin.1, dst := some fin.2.1,
        log := fin.2.2 ++
          (if dry then ["⚠️  This was a dry run. Set dry_run=False to actually move files."]
           else []),
        processed := m4b_files.map Prod.fst }

/-! The Organizer (MoveFromOpenAudibleToPlex.py, organize_audiobooks). -/

/-- Per-item outcome of the Organizer, mirroring its stats counters. -/
inductive OrgOutcome where
  | skipped
  | success
deriving DecidableEq

/-- Run counters of the Organizer. -/
structure OrgStats where
  success : Nat
  skipped : Nat
  failures : Nat
deriving DecidableEq

/-- Accumulated state of the Organizer loop. -/
structure OrgState where
  dest : Option Tree
  stats : OrgStats
  outcomes : List (String × OrgOutcome)
deriving DecidableEq

/-- The album-art extensions probed, in source order. -/
def art_extensions : List String :=
  [".jpg", ".jpeg", ".png", ".JPG", ".JPEG", ".PNG"]

/-- Find album art whose base name equals the audiobook base name,
first matching extension wins. -/
def find_matching_album_art (base : String) (art : Dir) : Option (String × FSFile) :=
  art_extensions.findSome? (fun ext =>
    (lookupKey art (base ++ ext)).map (fun f => (base ++ ext, f)))

/-- One iteration of the Organizer loop: size-based duplicate skip,
otherwise create the folder, copy the audio file (overwriting), copy
matching album art renamed cover.jpg, and count a success.  Mutations
are gated by the dry flag; the success counter is not. -/
def organize_step (art : Dir) (dry : Bool) (st : OrgState) (item : String × FSFile) :
    OrgState :=
  let base := stem item.1
  let tree := st.dest.getD []
  let folder := getDir tree base
  let proceed : OrgState :=
    let folder1 := setKey folder item.1 item.2
    let folder2 :=
      match find_matching_album_art base art with
      | some (_, af) => setKey folder1 "cover.jpg" af
      | none => folder1
    { dest := if dry then st.dest else some (setKey tree base folder2),
      stats := { st.stats with success := st.stats.success + 1 },
      outcomes := st.outcomes ++ [(item.1, OrgOutcome.success)] }
  match lookupKey folder item.1 with
  | some existing =>
    if existing.size = item.2.size then
      { dest := st.dest,
        stats := { st.stats with skipped := st.stats.skipped + 1 },
        outcomes := st.outcomes ++ [(item.1, OrgOutcome.skipped)] }
    else proceed
  | none => proceed

/-- Result of one Organizer run. -/
structure OrgResult where
  dest : Option Tree
  stats : OrgStats
  outcomes : List (String × OrgOutcome)
  items : List String
  errorLogged : Bool
deriving DecidableEq

/-- The organize_audiobooks entry point: validates the two source
folders, creates a missing destination on a live run, selects the .m4b
files and processes them in sorted order. -/
def organize_audiobooks (m4b? art? : Option Dir) (dest? : Option Tree) (dry : Bool) :
    OrgResult :=
  match m4b? with
  | none =>
    { dest := dest?, stats := ⟨0, 0, 0⟩, outcomes := [], items := [], errorLogged := true }
  | some m4bDir =>
    match art? with
    | none =>
      { dest := dest?, stats := ⟨0, 0, 0⟩, outcomes := [], items := [], errorLogged := true }
    | some art =>
      let dest0 : Option Tree := if dest?.isNone ∧ ¬dry then some [] else dest?
      let m4b_files := m4bDir.filter (fun p => isM4b p.1)
      if m4b_files.isEmpty then
        { dest := dest0, stats := ⟨0, 0, 0⟩, outcomes := [], items := [], errorLogged := false }
      else
        let sortedFiles := sortBy (fun p => p.1) m4b_files
        let fin := sortedFiles.foldl (organize_step art dry)
          { dest := dest0, stats := ⟨0, 0, 0⟩, outcomes := [] }
        { dest := fin.dest, stats := fin.stats, outcomes := fin.outcomes,
          items := sortedFiles.map Prod.fst, errorLogged := false }

/-! The Cover Resolver (CoverArtRetriever.py, CoverArtDownloader). -/

/-- A book folder of the library: its name and its files. -/
structure Folder where
  name : String
  files : Dir
deriving DecidableEq

/-- Outcome of one HTTP metadata request: any transport error,
non-success status or body decode failure collapses into err, exactly
as the catch-all handlers of the source treat them. -/
inductive HttpResult (α : Type) where
  | err : HttpResult α
  | ok : α → HttpResult α
deriving DecidableEq

/-- The fields of an iTunes search response the code reads: the
resultCount value and, for the first result, the artworkUrl100 field
(none when the key is absent). -/
structure ItunesData where
  resultCount : Nat
  artworkUrl100 : Option String
deriving DecidableEq

/-- The fields of an Open Library search response the code reads: the
numFound value and, for the first doc, the cover_i field (none when the
key is absent). -/
structure OpenLibraryData where
  numFound : Nat
  cover_i : Option Nat
deriving DecidableEq

/-- Network environment of one run: search responses per query title
and the image fetch per URL (none is any download failure). -/
structure NetEnv where
  itunes : String → HttpResult ItunesData
  openlibrary : String → HttpResult OpenLibraryData
  fetch : String → Option FSFile

/-- Observable actions of the resolver, recorded as a trace. -/
inductive Event where
  | searchItunes (title : String)
  | searchOpenLibrary (title : String)
  | download (url : String) (folder : String) (filename : String)
  | sleep (ms : Nat)
deriving DecidableEq

/-- The provider a cover candidate came from. -/
inductive Provider where
  | itunes
  | openLibrary
deriving DecidableEq

/-- Per-folder outcome of the resolver. -/
inductive Outcome where
  | alreadyHasCover
  | notFound
  | downloaded (p : Provider)
  | downloadFailed
  | dryRunFound (p : Provider)
deriving DecidableEq

/-- Run counters of the resolver (the stats dictionary). -/
structure CoverStats where
  total_folders : Nat
  already_has_cover : Nat
  downloaded_itunes : Nat
  downloaded_openlibrary : Nat
  failed : Nat
deriving DecidableEq

/-- The zeroed stats dictionary the downloader starts with. -/
def coverStatsZero : CoverStats := ⟨0, 0, 0, 0, 0⟩

/-- How one folder outcome updates the stats counters; a dry-run found
folder increments nothing, matching the source where the download
branch alone touches the download and failure counters. -/
def applyOutcome (s : CoverStats) (o : Outcome) : CoverStats :=
  match o with
  | Outcome.alreadyHasCover => { s with already_has_cover := s.already_has_cover + 1 }
  | Outcome.notFound => { s with failed := s.failed + 1 }
  | Outcome.downloaded Provider.itunes => { s with downloaded_itunes := s.downloaded_itunes + 1 }
  | Outcome.downloaded Provider.openLibrary =>
    { s with downloaded_openlibrary := s.downloaded_openlibrary + 1 }
  | Outcome.downloadFailed => { s with failed := s.failed + 1 }
  | Outcome.dryRunFound _ => s

/-- The recognized cover filenames, in source order. -/
def common_cover_names : List String :=
  ["cover.jpg", "cover.jpeg", "cover.png",
   "folder.jpg", "folder.jpeg", "folder.png",
   "poster.jpg", "poster.jpeg", "poster.png"]

/-- Whether a folder already has cover art: any recognized name exists. -/
def has_cover_art (files : Dir) : Bool :=
  common_cover_names.any (fun n => (lookupKey files n).isSome)

/-- The search_itunes method: on success with a positive resultCount,
read artworkUrl100 (defaulting to the empty string), upgrade 100x100 to
600x600, and return it when non-empty; every failure is none. -/
def search_itunes (env : NetEnv) (book_title : String) : Option String :=
  match env.itunes book_title with
  | HttpResult.err => none
  | HttpResult.ok data =>
    if 0 < data.resultCount then
      let artwork_url := pyReplace (data.artworkUrl100.getD "") "100x100" "600x600"
      if artwork_url = "" then none else some artwork_url
    else none

/-- The search_openlibrary method: on success with a positive numFound
and a truthy cover_i, build the fixed large-cover URL; every failure is
none. -/
def search_openlibrary (env : NetEnv) (book_title : String) : Option String :=
  match env.openlibrary book_title with
  | HttpResult.err => none
  | HttpResult.ok data =>
    if 0 < data.numFound then
      match data.cover_i with
      | some cover_id =>
        if cover_id = 0 then none
        else some ("https://covers.openlibrary.org/b/id/" ++ toString cover_id ++ "-L.jpg")
      | none => none
    else none

/-- Tail of the loop body once a cover candidate was resolved: in a dry
run only the courtesy sleep happens; in a live run the image is fetched
and, on success, written under the configured cover filename.  The
sleep is reached in all of these branches. -/
def finishFound (env : NetEnv) (cover_filename : String) (dry : Bool) (folder : Folder)
    (provider : Provider) (url : String) (queries : List Event) :
    Folder × Outcome × List Event :=
  if dry then
    (folder, Outcome.dryRunFound provider, queries ++ [Event.sleep 500])
  else
    match env.fetch url with
    | some img =>
      ({ folder with files := setKey folder.files cover_filename img },
       Outcome.downloaded provider,
       queries ++ [Event.download url folder.name cover_filename, Event.sleep 500])
    | none =>
      (folder, Outcome.downloadFailed,
       queries ++ [Event.download url folder.name cover_filename, Event.sleep 500])

/-- One iteration of the process_folders loop: skip folders that
already have cover art (continue, before the sleep), otherwise query
iTunes first and Open Library only as fallback; when neither yields a
URL the folder is counted failed (continue, before the sleep). -/
def process_folder (env : NetEnv) (cover_filename : String) (dry : Bool) (folder : Folder) :
    Folder × Outcome × List Event :=
  if has_cover_art folder.files then
    (folder, Outcome.alreadyHasCover, [])
  else
    match search_itunes env folder.name with
    | some url =>
      finishFound env cover_filename dry folder Provider.itunes url
        [Event.searchItunes folder.name]
    | none =>
      match search_openlibrary env folder.name with
      | some url =>
        finishFound env cover_filename dry folder Provider.openLibrary url
          [Event.searchItunes folder.name, Event.searchOpenLibrary folder.name]
      | none =>
        (folder, Outcome.notFound,
         [Event.searchItunes folder.name, Event.searchOpenLibrary folder.name])

/-- Result of one resolver run. -/
structure CoverResult where
  folders : List Folder
  stats : CoverStats
  events : List Event
  outcomes : List (String × Outcome)
  errorLogged : Bool
deriving DecidableEq

/-- Accumulation of one processed folder into the run result. -/
def coverStep (env : NetEnv) (cover_filename : String) (dry : Bool)
    (st : List Folder × CoverStats × List Event × List (String × Outcome))
    (folder : Folder) : List Folder × CoverStats × List Event × List (String × Outcome) :=
  let stats1 := { st.2.1 with total_folders := st.2.1.total_folders + 1 }
  let r := process_folder env cover_filename dry folder
  (st.1 ++ [r.1], applyOutcome stats1 r.2.1, st.2.2.1 ++ r.2.2,
   st.2.2.2 ++ [(folder.name, r.2.1)])

/-- The process_folders entry point: a missing library folder is a
logged fatal condition with nothing processed; otherwise every book
folder is processed in sorted order. -/
def process_folders (env : NetEnv) (cover_filename : String) (dry : Bool)
    (library? : Option (List Folder)) : CoverResult :=
  match library? with
  | none =>
    { folders := [], stats := coverStatsZero, events := [], outcomes := [],
      errorLogged := true }
  | some lib =>
    let sortedLib := sortBy Folder.name lib
    let fin := sortedLib.foldl (coverStep env cover_filename dry) ([], coverStatsZero, [], [])
    { folders := fin.1, stats := fin.2.1, events := fin.2.2.1, outcomes := fin.2.2.2,
      errorLogged := false }

/-- Whether an event is a provider search (a read-only metadata GET). -/
def isSearchEvent : Event → Bool
  | Event.searchItunes _ => true
  | Event.searchOpenLibrary _ => true
  | _ => false

/-- Whether an event is an image download. -/
def isDownloadEvent : Event → Bool
  | Event.download _ _ _ => true
  | _ => false

/-- Number of Open Library queries in a trace. -/
def countOpenLibraryQueries (evs : List Event) : Nat :=
  evs.countP (fun e =>
    match e with
    | Event.searchOpenLibrary _ => true
    | _ => false)

/-! Concrete fixtures used by witnesses and counterexamples. -/

/-- A network environment where every request fails. -/
def envAllErr : NetEnv :=
  { itunes := fun _ => HttpResult.err,
    openlibrary := fun _ => HttpResult.err,
    fetch := fun _ => none }

/-- A network environment in which the iTunes query for Dune returns a
top result with a 100x100 artwork URL and the 600x600 variant of that
URL downloads successfully. -/
def envDune : NetEnv :=
  { itunes := fun t =>
      if t = "Dune" then HttpResult.ok ⟨1, some "https://is1.example/img/100x100bb.jpg"⟩
      else HttpResult.err,
    openlibrary := fun _ => HttpResult.err,
    fetch := fun u =>
      if u = "https://is1.example/img/600x600bb.jpg" then some ⟨77, 42⟩ else none }

/-- A book folder named Dune with no files. -/
def duneFolder : Folder := { name := "Dune", files := [] }

/-- A book folder that already has a recognized cover file. -/
def coveredFolder : Folder := { name := "Hyperion", files := [("folder.png", ⟨5, 5⟩)] }

/-! Invariants used by the run-level proofs. -/

/-- After a live Mover run, an item is gone from the source and sits
exactly once in its book folder of the destination. -/
def movedInvariant (st : Dir × Tree × List String) (name : String) (f : FSFile) : Prop :=
  lookupKey st.1 name = none ∧
  lookupKey (getDir st.2.1 (stem name)) name = some f ∧
  countKey (getDir st.2.1 (stem name)) name = 1

/-- The Organizer duplicate test holds for an item against a
destination: the destination audio file exists with the same byte
size. -/
def sizeMatched (dest : Option Tree) (name : String) (f : FSFile) : Prop :=
  ∃ g, lookupKey (getDir (dest.getD []) (stem name)) name = some g ∧ g.size = f.size

/-! Association-list lemmas. -/

theorem lookupKey_eraseKey_self {α : Type} (l : List (String × α)) (k : String) :
    lookupKey (eraseKey l k) k = none := by
  induction l with
  | nil => rfl
  | cons p rest ih =>
    by_cases h : p.1 = k
    · simpa [eraseKey, List.filter_cons, h] using ih
    · simpa [eraseKey, List.filter_cons, h, lookupKey] using ih

theorem lookupKey_eraseKey_ne {α : Type} (l : List (String × α)) (k k' : String)
    (h : k' ≠ k) : lookupKey (eraseKey l k) k' = lookupKey l k' := by
  induction l with
  | nil => rfl
  | cons p rest ih =>
    by_cases h1 : p.1 = k
    · simp only [eraseKey, List.filter_cons] at ih ⊢
      simp [lookupKey, h1, Ne.symm h, ih]
    · by_cases h2 : p.1 = k'
      · simp [eraseKey, List.filter_cons, lookupKey, h1, h2, h]
      · simp only [eraseKey, List.filter_cons] at ih ⊢
        simp [lookupKey, h1, h2, ih]

theorem lookupKey_append_of_none {α : Type} (l₁ l₂ : List (String × α)) (k : String)
    (h : lookupKey l₁ k = none) : lookupKey (l₁ ++ l₂) k = lookupKey l₂ k := by
  induction l₁ with
  | nil => rfl
  | cons p rest ih =>
    by_cases h1 : p.1 = k
    · simp [lookupKey, h1] at h
    · simp [lookupKey, h1] at h ⊢
      exact ih h

theorem lookupKey_setKey_self {α : Type} (l : List (String × α)) (k : String) (v : α) :
    lookupKey (setKey l k v) k = some v := by
  rw [setKey, lookupKey_append_of_none _ _ _ (lookupKey_eraseKey_self l k)]
  simp [lookupKey]

theorem lookupKey_append_of_some {α : Type} (l₁ l₂ : List (String × α)) (k : String) (v : α)
    (h : lookupKey l₁ k = some v) : lookupKey (l₁ ++ l₂) k = some v := by
  induction l₁ with
  | nil => simp [lookupKey] at h
  | cons p rest ih =>
    by_cases h1 : p.1 = k
    · simp [lookupKey, h1] at h ⊢
      exact h
    · simp [lookupKey, h1] at h ⊢
      exact ih h

theorem lookupKey_setKey_ne {α : Type} (l : List (String × α)) (k k' : String) (v : α)
    (h : k' ≠ k) : lookupKey (setKey l k v) k' = lookupKey l k' := by
  cases hc : lookupKey (eraseKey l k) k' with
  | some v' =>
    rw [setKey, lookupKey_append_of_some _ _ _ _ hc, ← lookupKey_eraseKey_ne l k k' h, hc]
  | none =>
    rw [setKey, lookupKey_append_of_none _ _ _ hc, ← lookupKey_eraseKey_ne l k k' h, hc]
    simp [lookupKey, Ne.symm h]

theorem countKey_append {α : Type} (l₁ l₂ : List (String × α)) (k : String) :
    countKey (l₁ ++ l₂) k = countKey l₁ k + countKey l₂ k := by
  induction l₁ with
  | nil => simp [countKey]
  | cons p rest ih => simp [countKey, ih]; omega

theorem countKey_eraseKey_self {α : Type} (l : List (String × α)) (k : String) :
    countKey (eraseKey l k) k = 0 := by
  induction l with
  | nil => rfl
  | cons p rest ih =>
    by_cases h : p.1 = k
    · simpa [eraseKey, List.filter_cons, h, countKey] using ih
    · simpa [eraseKey, List.filter_cons, h, countKey] using ih

theorem countKey_setKey_self {α : Type} (l : List (String × α)) (k : String) (v : α) :
    countKey (setKey l k v) k = 1 := by
  rw [setKey, countKey_append, countKey_eraseKey_self]
  simp [countKey]

theorem getDir_setKey_self (t : Tree) (k : String) (d : Dir) :
    getDir (setKey t k d) k = d := by
  simp [getDir, lookupKey_setKey_self]

theorem getDir_setKey_ne (t : Tree) (k k' : String) (d : Dir) (h : k' ≠ k) :
    getDir (setKey t k d) k' = getDir t k' := by
  simp [getDir, lookupKey_setKey_ne t k k' d h]

theorem countKey_eraseKey_ne {α : Type} (l : List (String × α)) (k k' : String)
    (h : k' ≠ k) : countKey (eraseKey l k) k' = countKey l k' := by
  induction l with
  | nil => rfl
  | cons p rest ih =>
    by_cases h1 : p.1 = k
    · simp only [eraseKey, List.filter_cons] at ih ⊢
      simp [countKey, h1, Ne.symm h, ih]
    · by_cases h2 : p.1 = k'
      · simp only [eraseKey, List.filter_cons] at ih ⊢
        simp [countKey, h1, h2, h, ih]
      · simp only [eraseKey, List.filter_cons] at ih ⊢
        simp [countKey, h1, h2, h, ih]

theorem countKey_setKey_ne {α : Type} (l : List (String × α)) (k k' : String) (v : α)
    (h : k' ≠ k) : countKey (setKey l k v) k' = countKey l k' := by
  rw [setKey, countKey_append, countKey_eraseKey_ne l k k' h]
  simp [countKey, Ne.symm h]

/-! Sorting lemmas: the modelled sorted builtin permutes its input. -/

theorem insertBy_perm {α : Type} (key : α → String) (x : α) (l : List α) :
    List.Perm (insertBy key x l) (x :: l) := by
  induction l with
  | nil => exact List.Perm.refl _
  | cons y ys ih =>
    by_cases h : strLe (key x) (key y)
    · simp [insertBy, h]
    · simp only [insertBy, h, if_false, Bool.false_eq_true]
      exact List.Perm.trans (List.Perm.cons y ih) (List.Perm.swap x y ys)

theorem sortBy_perm {α : Type} (key : α → String) (l : List α) :
    List.Perm (sortBy key l) l := by
  induction l with
  | nil => exact List.Perm.refl _
  | cons x xs ih =>
    exact List.Perm.trans (insertBy_perm key x (sortBy key xs)) (List.Perm.cons x ih)

theorem mem_sortBy {α : Type} (key : α → String) (a : α) (l : List α) :
    a ∈ sortBy key l ↔ a ∈ l :=
  (sortBy_perm key l).mem_iff

theorem sortBy_map_nodup {α β : Type} (key : α → String) (f : α → β) (l : List α)
    (h : (l.map f).Nodup) : ((sortBy key l).map f).Nodup :=
  (((sortBy_perm key l).map f).nodup_iff).mpr h

/-! Replacement lemmas: a replacement with a non-empty image of a
non-empty string is non-empty. -/

theorem replaceAllAux_ne_nil (rep pat : List Char) (s : List Char) (hs : s ≠ [])
    (hr : rep ≠ []) : replaceAllAux rep pat s.length s ≠ [] := by
  cases s with
  | nil => exact absurd rfl hs
  | cons c cs =>
    show replaceAllAux rep pat (cs.length + 1) (c :: cs) ≠ []
    by_cases h : pat.isPrefixOf (c :: cs)
    · simp only [replaceAllAux, h, if_true]
      simp [List.append_eq_nil]
      intro h1 _
      exact hr h1
    · simp [replaceAllAux, h]

theorem pyReplace_ne_empty (s pat rep : String) (hs : s.data ≠ []) (hp : pat.data ≠ [])
    (hr : rep.data ≠ []) : pyReplace s pat rep ≠ "" := by
  rw [pyReplace, if_neg hp]
  intro he
  have hd : replaceAllAux rep.data pat.data s.data.length s.data = [] := by
    have := congrArg String.data he
    simpa using this
  exact replaceAllAux_ne_nil rep.data pat.data s.data hs hr hd

/-! Mover run lemmas. -/

theorem moverStep_dry_state (dstRoot : String) (st : Dir × Tree × List String)
    (item : String × FSFile) :
    (moverStep dstRoot true st item).1 = st.1 ∧
    (moverStep dstRoot true st item).2.1 = st.2.1 := by
  simp [moverStep]

theorem mover_foldl_dry_state (dstRoot : String) (items : List (String × FSFile))
    (st : Dir × Tree × List String) :
    (items.foldl (moverStep dstRoot true) st).1 = st.1 ∧
    (items.foldl (moverStep dstRoot true) st).2.1 = st.2.1 := by
  induction items generalizing st with
  | nil => exact ⟨rfl, rfl⟩
  | cons i is ih =>
    simp only [List.foldl_cons]
    have h1 := ih (moverStep dstRoot true st i)
    have h2 := moverStep_dry_state dstRoot st i
    exact ⟨h1.1.trans h2.1, h1.2.trans h2.2⟩

theorem moverStep_establishes (dstRoot : String) (st : Dir × Tree × List String)
    (name : String) (f : FSFile) :
    movedInvariant (moverStep dstRoot false st (name, f)) name f := by
  unfold movedInvariant moverStep
  simp only [Bool.false_eq_true, if_false]
  refine ⟨lookupKey_eraseKey_self _ _, ?_, ?_⟩
  · rw [getDir_setKey_self, lookupKey_setKey_self]
  · rw [getDir_setKey_self, countKey_setKey_self]

theorem moverStep_preserves (dstRoot : String) (dry : Bool) (st : Dir × Tree × List String)
    (item : String × FSFile) (name : String) (f : FSFile) (h : item.1 ≠ name)
    (hinv : movedInvariant st name f) :
    movedInvariant (moverStep dstRoot dry st item) name f := by
  cases dry with
  | true =>
    have hs := moverStep_dry_state dstRoot st item
    unfold movedInvariant at hinv ⊢
    rw [hs.1, hs.2]
    exact hinv
  | false =>
    obtain ⟨h1, h2, h3⟩ := hinv
    unfold movedInvariant moverStep
    simp only [Bool.false_eq_true, if_false]
    refine ⟨?_, ?_, ?_⟩
    · rw [lookupKey_eraseKey_ne st.1 item.1 name (Ne.symm h)]
      exact h1
    · by_cases hb : stem item.1 = stem name
      · rw [← hb] at h2 ⊢
        rw [getDir_setKey_self, lookupKey_setKey_ne _ _ _ _ (Ne.symm h)]
        exact h2
      · rw [getDir_setKey_ne _ _ _ _ (fun he => hb he.symm)]
        exact h2
    · by_cases hb : stem item.1 = stem name
      · rw [← hb] at h3 ⊢
        rw [getDir_setKey_self, countKey_setKey_ne _ _ _ _ (Ne.symm h)]
        exact h3
      · rw [getDir_setKey_ne _ _ _ _ (fun he => hb he.symm)]
        exact h3

theorem mover_foldl_preserves (dstRoot : String) (items : List (String × FSFile))
    (st : Dir × Tree × List String) (name : String) (f : FSFile)
    (h : ∀ j ∈ items, j.1 ≠ name) (hinv : movedInvariant st name f) :
    movedInvariant (items.foldl (moverStep dstRoot false) st) name f := by
  induction items generalizing st with
  | nil => exact hinv
  | cons i is ih =>
    simp only [List.foldl_cons]
    exact ih (moverStep dstRoot false st i) (fun j hj => h j (List.mem_cons_of_mem i hj))
      (moverStep_preserves dstRoot false st i name f (h i (List.mem_cons_self i is)) hinv)

theorem mover_foldl_invariant (dstRoot : String) (items : List (String × FSFile))
    (st : Dir × Tree × List String) (name : String) (f : FSFile)
    (hmem : (name, f) ∈ items) (hnd : (items.map Prod.fst).Nodup) :
    movedInvariant (items.foldl (moverStep dstRoot false) st) name f := by
  induction items generalizing st with
  | nil => cases hmem
  | cons i is ih =>
    simp only [List.foldl_cons]
    rcases List.mem_cons.mp hmem with heq | hmem'
    · subst heq
      have hnd0 : (name :: is.map Prod.fst).Nodup := by
        rw [List.map_cons] at hnd
        exact hnd
      have hnd' := List.nodup_cons.mp hnd0
      refine mover_foldl_preserves dstRoot is _ name f ?_
        (moverStep_establishes dstRoot st name f)
      intro j hj he
      exact hnd'.1 (he ▸ List.mem_map_of_mem Prod.fst hj)
    · have hnd0 : (i.1 :: is.map Prod.fst).Nodup := by
        rw [List.map_cons] at hnd
        exact hnd
      exact ih _ hmem' (List.nodup_cons.mp hnd0).2

theorem mover_foldl_src_other (dstRoot : String) (dry : Bool)
    (items : List (String × FSFile)) (st : Dir × Tree × List String) (name : String)
    (h : ∀ j ∈ items, j.1 ≠ name) :
    lookupKey (items.foldl (moverStep dstRoot dry) st).1 name = lookupKey st.1 name := by
  induction items generalizing st with
  | nil => rfl
  | cons i is ih =>
    simp only [List.foldl_cons]
    rw [ih (moverStep dstRoot dry st i) (fun j hj => h j (List.mem_cons_of_mem i hj))]
    cases dry with
    | true => exact congrArg (fun d => lookupKey d name) (moverStep_dry_state dstRoot st i).1
    | false =>
      show lookupKey (eraseKey st.1 i.1) name = lookupKey st.1 name
      exact lookupKey_eraseKey_ne st.1 i.1 name (Ne.symm (h i (List.mem_cons_self i is)))

/-! Organizer run lemmas. -/

theorem isM4b_ne_cover (name : String) (h : isM4b name = true) : name ≠ "cover.jpg" := by
  intro he
  rw [he] at h
  exact absurd h (by decide)

theorem organize_step_skip (art : Dir) (dry : Bool) (st : OrgState) (name : String)
    (f g : FSFile)
    (hex : lookupKey (getDir (st.dest.getD []) (stem name)) name = some g)
    (hsize : g.size = f.size) :
    organize_step art dry st (name, f) =
      { dest := st.dest, stats := { st.stats with skipped := st.stats.skipped + 1 },
        outcomes := st.outcomes ++ [(name, OrgOutcome.skipped)] } := by
  simp [organize_step, hex, hsize]

theorem organize_step_copy (art : Dir) (st : OrgState) (name : String) (f : FSFile)
    (hm4b : isM4b name = true)
    (hns : ∀ g, lookupKey (getDir (st.dest.getD []) (stem name)) name = some g →
      g.size ≠ f.size) :
    lookupKey (getDir (((organize_step art false st (name, f)).dest).getD []) (stem name)) name
      = some f ∧
    (organize_step art false st (name, f)).stats.success = st.stats.success + 1 ∧
    (organize_step art false st (name, f)).outcomes =
      st.outcomes ++ [(name, OrgOutcome.success)] := by
  have hcov := isM4b_ne_cover name hm4b
  simp only [organize_step]
  cases hlk : lookupKey (getDir (st.dest.getD []) (stem name)) name with
  | some g =>
    simp only [hlk, if_neg (hns g hlk)]
    cases hart : find_matching_album_art (stem name) art with
    | some p =>
      obtain ⟨n, af⟩ := p
      simp [hart, getDir_setKey_self, lookupKey_setKey_self, lookupKey_setKey_ne _ _ _ _ hcov]
    | none =>
      simp [hart, getDir_setKey_self, lookupKey_setKey_self]
  | none =>
    simp only [hlk]
    cases hart : find_matching_album_art (stem name) art with
    | some p =>
      obtain ⟨n, af⟩ := p
      simp [hart, getDir_setKey_self, lookupKey_setKey_self, lookupKey_setKey_ne _ _ _ _ hcov]
    | none =>
      simp [hart, getDir_setKey_self, lookupKey_setKey_self]

theorem organize_step_dry_dest (art : Dir) (st : OrgState) (item : String × FSFile) :
    (organize_step art true st item).dest = st.dest := by
  simp only [organize_step]
  split
  · split
    · rfl
    · rfl
  · rfl

theorem organize_foldl_dry_dest (art : Dir) (items : List (String × FSFile)) (st : OrgState) :
    (items.foldl (organize_step art true) st).dest = st.dest := by
  induction items generalizing st with
  | nil => rfl
  | cons i is ih =>
    simp only [List.foldl_cons]
    exact (ih (organize_step art true st i)).trans (organize_step_dry_dest art st i)

theorem organize_step_establishes (art : Dir) (st : OrgState) (name : String) (f : FSFile)
    (hm4b : isM4b name = true) :
    sizeMatched (organize_step art false st (name, f)).dest name f := by
  by_cases hex : ∃ g, lookupKey (getDir (st.dest.getD []) (stem name)) name = some g ∧
    g.size = f.size
  · obtain ⟨g, hg, hsz⟩ := hex
    rw [organize_step_skip art false st name f g hg hsz]
    exact ⟨g, hg, hsz⟩
  · push_neg at hex
    exact ⟨f, (organize_step_copy art st name f hm4b hex).1, rfl⟩

theorem organize_step_preserves (art : Dir) (dry : Bool) (st : OrgState)
    (item : String × FSFile) (name : String) (f : FSFile)
    (hne : item.1 ≠ name) (hm4b : isM4b name = true)
    (hsm : sizeMatched st.dest name f) :
    sizeMatched (organize_step art dry st item).dest name f := by
  cases dry with
  | true =>
    rw [organize_step_dry_dest art st item]
    exact hsm
  | false =>
    obtain ⟨g, hg, hsz⟩ := hsm
    obtain ⟨iname, ifile⟩ := item
    have hne' : iname ≠ name := hne
    have hcov := isM4b_ne_cover name hm4b
    simp only [organize_step]
    cases hlk : lookupKey (getDir (st.dest.getD []) (stem iname)) iname with
    | some existing =>
      simp only [hlk]
      by_cases hcond : existing.size = ifile.size
      · simp only [hcond, if_true]
        exact ⟨g, hg, hsz⟩
      · simp only [if_neg hcond]
        by_cases hb : stem iname = stem name
        · rw [← hb] at hg
          refine ⟨g, ?_, hsz⟩
          cases hart : find_matching_album_art (stem iname) art with
          | some p =>
            obtain ⟨n, af⟩ := p
            simp only [hart, Bool.false_eq_true, if_false, Option.getD_some, ← hb]
            rw [getDir_setKey_self, lookupKey_setKey_ne _ _ _ _ hcov,
              lookupKey_setKey_ne _ _ _ _ (Ne.symm hne'), hg]
          | none =>
            simp only [hart, Bool.false_eq_true, if_false, Option.getD_some, ← hb]
            rw [getDir_setKey_self, lookupKey_setKey_ne _ _ _ _ (Ne.symm hne'), hg]
        · refine ⟨g, ?_, hsz⟩
          cases hart : find_matching_album_art (stem iname) art with
          | some p =>
            obtain ⟨n, af⟩ := p
            simp only [hart, Bool.false_eq_true, if_false, Option.getD_some]
            rw [getDir_setKey_ne _ _ _ _ (fun he => hb he.symm), hg]
          | none =>
            simp only [hart, Bool.false_eq_true, if_false, Option.getD_some]
            rw [getDir_setKey_ne _ _ _ _ (fun he => hb he.symm), hg]
    | none =>
      simp only [hlk]
      by_cases hb : stem iname = stem name
      · rw [← hb] at hg
        refine ⟨g, ?_, hsz⟩
        cases hart : find_matching_album_art (stem iname) art with
        | some p =>
          obtain ⟨n, af⟩ := p
          simp only [hart, Bool.false_eq_true, if_false, Option.getD_some, ← hb]
          rw [getDir_setKey_self, lookupKey_setKey_ne _ _ _ _ hcov,
            lookupKey_setKey_ne _ _ _ _ (Ne.symm hne'), hg]
        | none =>
          simp only [hart, Bool.false_eq_true, if_false, Option.getD_some, ← hb]
          rw [getDir_setKey_self, lookupKey_setKey_ne _ _ _ _ (Ne.symm hne'), hg]
      · refine ⟨g, ?_, hsz⟩
        cases hart : find_matching_album_art (stem iname) art with
        | some p =>
          obtain ⟨n, af⟩ := p
          simp only [hart, Bool.false_eq_true, if_false, Option.getD_some]
          rw [getDir_setKey_ne _ _ _ _ (fun he => hb he.symm), hg]
        | none =>
          simp only [hart, Bool.false_eq_true, if_false, Option.getD_some]
          rw [getDir_setKey_ne _ _ _ _ (fun he => hb he.symm), hg]

theorem organize_foldl_preserves (art : Dir) (items : List (String × FSFile)) (st : OrgState)
    (name : String) (f : FSFile) (h : ∀ j ∈ items, j.1 ≠ name) (hm4b : isM4b name = true)
    (hsm : sizeMatched st.dest name f) :
    sizeMatched ((items.foldl (organize_step art false) st).dest) name f := by
  induction items generalizing st with
  | nil => exact hsm
  | cons i is ih =>
    simp only [List.foldl_cons]
    exact ih (organize_step art false st i) (fun j hj => h j (List.mem_cons_of_mem i hj))
      (organize_step_preserves art false st i name f (h i (List.mem_cons_self i is)) hm4b hsm)

theorem organize_foldl_invariant (art : Dir) (items : List (String × FSFile)) (st : OrgState)
    (name : String) (f : FSFile) (hmem : (name, f) ∈ items)
    (hnd : (items.map Prod.fst).Nodup) (hm4b : isM4b name = true) :
    sizeMatched ((items.foldl (organize_step art false) st).dest) name f := by
  induction items generalizing st with
  | nil => cases hmem
  | cons i is ih =>
    simp only [List.foldl_cons]
    rcases List.mem_cons.mp hmem with heq | hmem'
    · subst heq
      have hnd0 : (name :: is.map Prod.fst).Nodup := by
        rw [List.map_cons] at hnd
        exact hnd
      have hnd' := List.nodup_cons.mp hnd0
      refine organize_foldl_preserves art is _ name f ?_ hm4b
        (organize_step_establishes art st name f hm4b)
      intro j hj he
      exact hnd'.1 (he ▸ List.mem_map_of_mem Prod.fst hj)
    · have hnd0 : (i.1 :: is.map Prod.fst).Nodup := by
        rw [List.map_cons] at hnd
        exact hnd
      exact ih _ hmem' (List.nodup_cons.mp hnd0).2

theorem organize_foldl_all_skip (art : Dir) (items : List (String × FSFile)) (st : OrgState)
    (h : ∀ p ∈ items, sizeMatched st.dest p.1 p.2) :
    items.foldl (organize_step art false) st =
      { dest := st.dest,
        stats := { st.stats with skipped := st.stats.skipped + items.length },
        outcomes := st.outcomes ++ items.map (fun p => (p.1, OrgOutcome.skipped)) } := by
  induction items generalizing st with
  | nil => simp
  | cons p ps ih =>
    obtain ⟨pn, pf⟩ := p
    obtain ⟨g, hg, hsz⟩ := h (pn, pf) (List.mem_cons_self (pn, pf) ps)
    simp only [List.foldl_cons]
    rw [organize_step_skip art false st pn pf g hg hsz, ih]
    · simp only [List.length_cons, List.map_cons]
      congr 1
      · congr 1
        omega
      · rw [List.append_assoc]
        rfl
    · intro q hq
      exact h q (List.mem_cons_of_mem (pn, pf) hq)

/-! Cover Resolver run lemmas. -/

theorem process_folder_dry_folder (env : NetEnv) (cf : String) (folder : Folder) :
    (process_folder env cf true folder).1 = folder := by
  cases hc : has_cover_art folder.files with
  | true => simp [process_folder, hc]
  | false =>
    cases hi : search_itunes env folder.name with
    | some url => simp [process_folder, hc, hi, finishFound]
    | none =>
      cases ho : search_openlibrary env folder.name with
      | some url => simp [process_folder, hc, hi, ho, finishFound]
      | none => simp [process_folder, hc, hi, ho]

theorem process_folder_dry_no_download (env : NetEnv) (cf : String) (folder : Folder) :
    (process_folder env cf true folder).2.2.filter isDownloadEvent = [] := by
  cases hc : has_cover_art folder.files with
  | true => simp [process_folder, hc]
  | false =>
    cases hi : search_itunes env folder.name with
    | some url => simp [process_folder, hc, hi, finishFound, isDownloadEvent]
    | none =>
      cases ho : search_openlibrary env folder.name with
      | some url => simp [process_folder, hc, hi, ho, finishFound, isDownloadEvent]
      | none => simp [process_folder, hc, hi, ho, isDownloadEvent]

theorem process_folder_search_filter (env : NetEnv) (cf : String) (folder : Folder) :
    (process_folder env cf true folder).2.2.filter isSearchEvent =
    (process_folder env cf false folder).2.2.filter isSearchEvent := by
  cases hc : has_cover_art folder.files with
  | true => simp [process_folder, hc]
  | false =>
    cases hi : search_itunes env folder.name with
    | some url =>
      cases hf : env.fetch url with
      | some img => simp [process_folder, hc, hi, finishFound, hf, isSearchEvent]
      | none => simp [process_folder, hc, hi, finishFound, hf, isSearchEvent]
    | none =>
      cases ho : search_openlibrary env folder.name with
      | some url =>
        cases hf : env.fetch url with
        | some img => simp [process_folder, hc, hi, ho, finishFound, hf, isSearchEvent]
        | none => simp [process_folder, hc, hi, ho, finishFound, hf, isSearchEvent]
      | none => simp [process_folder, hc, hi, ho, isSearchEvent]

theorem cover_foldl_dry_folders (env : NetEnv) (cf : String) (items : List Folder)
    (fs : List Folder) (s : CoverStats) (e : List Event) (o : List (String × Outcome)) :
    (items.foldl (coverStep env cf true) (fs, s, e, o)).1 = fs ++ items := by
  induction items generalizing fs s e o with
  | nil => simp
  | cons i is ih =>
    simp only [List.foldl_cons, coverStep]
    rw [ih, process_folder_dry_folder]
    simp

theorem cover_foldl_no_download (env : NetEnv) (cf : String) (items : List Folder)
    (fs : List Folder) (s : CoverStats) (e : List Event) (o : List (String × Outcome))
    (he : e.filter isDownloadEvent = []) :
    ((items.foldl (coverStep env cf true) (fs, s, e, o)).2.2.1).filter isDownloadEvent = [] := by
  induction items generalizing fs s e o with
  | nil => exact he
  | cons i is ih =>
    simp only [List.foldl_cons, coverStep]
    refine ih _ _ _ _ ?_
    rw [List.filter_append, he, process_folder_dry_no_download]
    rfl

theorem cover_foldl_search_eq (env : NetEnv) (cf : String) (items : List Folder)
    (fs1 : List Folder) (s1 : CoverStats) (e1 : List Event) (o1 : List (String × Outcome))
    (fs2 : List Folder) (s2 : CoverStats) (e2 : List Event) (o2 : List (String × Outcome))
    (he : e1.filter isSearchEvent = e2.filter isSearchEvent) :
    ((items.foldl (coverStep env cf true) (fs1, s1, e1, o1)).2.2.1).filter isSearchEvent =
    ((items.foldl (coverStep env cf false) (fs2, s2, e2, o2)).2.2.1).filter isSearchEvent := by
  induction items generalizing fs1 s1 e1 o1 fs2 s2 e2 o2 with
  | nil => exact he
  | cons i is ih =>
    simp only [List.foldl_cons, coverStep]
    refine ih _ _ _ _ _ _ _ _ ?_
    rw [List.filter_append, List.filter_append, he, process_folder_search_filter]

/-! Claim theorems. -/

/-- C1: for every book folder lacking cover art the resolver queries
iTunes first; Open Library is queried exactly once when and only when
iTunes yields no usable result; and when neither yields a result the
folder ends not-found with exactly those two queries, no download, no
sleep, and the failed counter incremented. -/
theorem C1_provider_priority (env : NetEnv) (cf : String) (dry : Bool) (folder : Folder)
    (s : CoverStats) (h : has_cover_art folder.files = false) :
    (process_folder env cf dry folder).2.2.head? = some (Event.searchItunes folder.name) ∧
    countOpenLibraryQueries (process_folder env cf dry folder).2.2 =
      (if search_itunes env folder.name = none then 1 else 0) ∧
    (search_itunes env folder.name = none → search_openlibrary env folder.name = none →
      (process_folder env cf dry folder).2.1 = Outcome.notFound ∧
      (process_folder env cf dry folder).2.2 =
        [Event.searchItunes folder.name, Event.searchOpenLibrary folder.name] ∧
      applyOutcome s (process_folder env cf dry folder).2.1 =
        { s with failed := s.failed + 1 }) := by
  cases hi : search_itunes env folder.name with
  | some url =>
    cases dry with
    | true => simp [process_folder, h, hi, finishFound, countOpenLibraryQueries]
    | false =>
      cases hf : env.fetch url with
      | some img => simp [process_folder, h, hi, finishFound, hf, countOpenLibraryQueries]
      | none => simp [process_folder, h, hi, finishFound, hf, countOpenLibraryQueries]
  | none =>
    cases ho : search_openlibrary env folder.name with
    | some url =>
      cases dry with
      | true => simp [process_folder, h, hi, ho, finishFound, countOpenLibraryQueries]
      | false =>
        cases hf : env.fetch url with
        | some img =>
          simp [process_folder, h, hi, ho, finishFound, hf, countOpenLibraryQueries]
        | none =>
          simp [process_folder, h, hi, ho, finishFound, hf, countOpenLibraryQueries]
    | none =>
      simp [process_folder, h, hi, ho, countOpenLibraryQueries, applyOutcome]

/-- Witness for C1: a folder with no files and an environment where
both providers fail. -/
theorem C1_provider_priority_witness :
    has_cover_art duneFolder.files = false ∧
    ((process_folder envAllErr "cover.jpg" false duneFolder).2.2.head? =
        some (Event.searchItunes duneFolder.name) ∧
      countOpenLibraryQueries (process_folder envAllErr "cover.jpg" false duneFolder).2.2 =
        (if search_itunes envAllErr duneFolder.name = none then 1 else 0) ∧
      (search_itunes envAllErr duneFolder.name = none →
        search_openlibrary envAllErr duneFolder.name = none →
        (process_folder envAllErr "cover.jpg" false duneFolder).2.1 = Outcome.notFound ∧
        (process_folder envAllErr "cover.jpg" false duneFolder).2.2 =
          [Event.searchItunes duneFolder.name, Event.searchOpenLibrary duneFolder.name] ∧
        applyOutcome coverStatsZero (process_folder envAllErr "cover.jpg" false duneFolder).2.1 =
          { coverStatsZero with failed := coverStatsZero.failed + 1 })) :=
  ⟨by decide,
   C1_provider_priority envAllErr "cover.jpg" false duneFolder coverStatsZero (by decide)⟩

/-- C2: a folder that already contains a recognized cover filename is
returned unchanged with an empty action trace (no query, no download,
no sleep) and is counted only as already-has-cover. -/
theorem C2_covered_untouched (env : NetEnv) (cf : String) (dry : Bool) (folder : Folder)
    (s : CoverStats) (h : has_cover_art folder.files = true) :
    process_folder env cf dry folder = (folder, Outcome.alreadyHasCover, []) ∧
    applyOutcome s Outcome.alreadyHasCover =
      { s with already_has_cover := s.already_has_cover + 1 } :=
  ⟨by simp [process_folder, h], rfl⟩

/-- Witness for C2: a folder holding folder.png. -/
theorem C2_covered_untouched_witness :
    has_cover_art coveredFolder.files = true ∧
    (process_folder envAllErr "cover.jpg" false coveredFolder =
        (coveredFolder, Outcome.alreadyHasCover, []) ∧
      applyOutcome coverStatsZero Outcome.alreadyHasCover =
        { coverStatsZero with already_has_cover := coverStatsZero.already_has_cover + 1 }) :=
  ⟨by decide,
   C2_covered_untouched envAllErr "cover.jpg" false coveredFolder coverStatsZero (by decide)⟩

/-- C3: when the iTunes top result carries an artwork URL containing
100x100, the live resolver downloads the 600x600 variant of that URL
and stores the body as cover.jpg inside the book folder. -/
theorem C3_itunes_highres (env : NetEnv) (folder : Folder) (d : ItunesData)
    (u a b : String) (img : FSFile)
    (hc : has_cover_art folder.files = false)
    (hq : env.itunes folder.name = HttpResult.ok d)
    (hcount : 0 < d.resultCount)
    (hurl : d.artworkUrl100 = some u)
    (hsub : u = a ++ "100x100" ++ b)
    (hfetch : env.fetch (pyReplace u "100x100" "600x600") = some img) :
    Event.download (pyReplace u "100x100" "600x600") folder.name "cover.jpg"
      ∈ (process_folder env "cover.jpg" false folder).2.2 ∧
    lookupKey (process_folder env "cover.jpg" false folder).1.files "cover.jpg" = some img ∧
    (process_folder env "cover.jpg" false folder).2.1 = Outcome.downloaded Provider.itunes := by
  have h100 : ("100x100" : String).data ≠ [] := by decide
  have hu : u.data ≠ [] := by
    rw [hsub, String.data_append, String.data_append]
    intro hnil
    rcases List.append_eq_nil.mp hnil with ⟨h1, h2⟩
    rcases List.append_eq_nil.mp h1 with ⟨h3, h4⟩
    exact h100 h4
  have hne : pyReplace u "100x100" "600x600" ≠ "" :=
    pyReplace_ne_empty u "100x100" "600x600" hu h100 (by decide)
  have hsi : search_itunes env folder.name = some (pyReplace u "100x100" "600x600") := by
    simp [search_itunes, hq, hcount, hurl, hne]
  simp [process_folder, hc, hsi, finishFound, hfetch, lookupKey_setKey_self]

/-- Witness for C3: the Dune scenario of the specification. -/
theorem C3_itunes_highres_witness :
    has_cover_art duneFolder.files = false ∧
    envDune.itunes duneFolder.name =
      HttpResult.ok ⟨1, some "https://is1.example/img/100x100bb.jpg"⟩ ∧
    (Event.download
        (pyReplace "https://is1.example/img/100x100bb.jpg" "100x100" "600x600")
        duneFolder.name "cover.jpg"
      ∈ (process_folder envDune "cover.jpg" false duneFolder).2.2 ∧
    lookupKey (process_folder envDune "cover.jpg" false duneFolder).1.files "cover.jpg" =
      some ⟨77, 42⟩ ∧
    (process_folder envDune "cover.jpg" false duneFolder).2.1 =
      Outcome.downloaded Provider.itunes) :=
  ⟨by decide, by decide,
   C3_itunes_highres envDune duneFolder ⟨1, some "https://is1.example/img/100x100bb.jpg"⟩
     "https://is1.example/img/100x100bb.jpg" "https://is1.example/img/" "bb.jpg" ⟨77, 42⟩
     (by decide) (by decide) (by decide) (by decide) (by decide) (by decide)⟩

/-- C9 counterexample: a folder that already has cover art is processed
(counted in total_folders with an already-has-cover outcome) yet the
run emits no sleep event, because the loop continues before the delay;
this refutes the delay-after-every-folder-regardless-of-outcome claim. -/
theorem C9_counterexample :
    (process_folders envAllErr "cover.jpg" false (some [coveredFolder])).stats.total_folders
      = 1 ∧
    (process_folders envAllErr "cover.jpg" false (some [coveredFolder])).outcomes =
      [("Hyperion", Outcome.alreadyHasCover)] ∧
    Event.sleep 500 ∉ (process_folders envAllErr "cover.jpg" false (some [coveredFolder])).events
    := by
  refine ⟨by decide, by decide, by decide⟩

/-- C9 amended: the fixed 500ms delay follows a processed folder
exactly when a cover candidate was found for it (download success,
download failure, or a dry-run find); folders counted already-has-cover
or not-found skip the delay via continue. -/
theorem C9_sleep_iff_candidate (env : NetEnv) (cf : String) (dry : Bool) (folder : Folder) :
    Event.sleep 500 ∈ (process_folder env cf dry folder).2.2 ↔
    ((process_folder env cf dry folder).2.1 ≠ Outcome.alreadyHasCover ∧
     (process_folder env cf dry folder).2.1 ≠ Outcome.notFound) := by
  cases hc : has_cover_art folder.files with
  | true => simp [process_folder, hc]
  | false =>
    cases hi : search_itunes env folder.name with
    | some url =>
      cases dry with
      | true => simp [process_folder, hc, hi, finishFound]
      | false =>
        cases hf : env.fetch url with
        | some img => simp [process_folder, hc, hi, finishFound, hf]
        | none => simp [process_folder, hc, hi, finishFound, hf]
    | none =>
      cases ho : search_openlibrary env folder.name with
      | some url =>
        cases dry with
        | true => simp [process_folder, hc, hi, ho, finishFound]
        | false =>
          cases hf : env.fetch url with
          | some img => simp [process_folder, hc, hi, ho, finishFound, hf]
          | none => simp [process_folder, hc, hi, ho, finishFound, hf]
      | none => simp [process_folder, hc, hi, ho]

/-! Dry-run frame helpers for the three workflows. -/

theorem mover_dry_frame (srcRoot dstRoot : String) (src? : Option Dir) (dst? : Option Tree) :
    (move_audiobooks srcRoot dstRoot src? dst? true).src = src? ∧
    (move_audiobooks srcRoot dstRoot src? dst? true).dst = dst? ∧
    (move_audiobooks srcRoot dstRoot src? dst? true).processed =
      (move_audiobooks srcRoot dstRoot src? dst? false).processed := by
  cases src? with
  | none => exact ⟨rfl, rfl, rfl⟩
  | some src =>
    cases dst? with
    | none => exact ⟨rfl, rfl, rfl⟩
    | some dst =>
      simp only [move_audiobooks]
      cases hemp : (src.filter (fun p => isM4b p.1)).isEmpty with
      | true => simp [hemp]
      | false =>
        simp only [hemp, Bool.false_eq_true, if_false]
        have h := mover_foldl_dry_state dstRoot (src.filter (fun p => isM4b p.1))
          (src, dst,
           ["Found " ++ toString (src.filter (fun p => isM4b p.1)).length ++
             " audiobook(s) to process:", ""])
        exact ⟨congrArg some h.1, congrArg some h.2, by trivial⟩

theorem organize_dry_frame (m4b? art? : Option Dir) (dest? : Option Tree) :
    (organize_audiobooks m4b? art? dest? true).dest = dest? ∧
    (organize_audiobooks m4b? art? dest? true).items =
      (organize_audiobooks m4b? art? dest? false).items := by
  cases m4b? with
  | none => exact ⟨rfl, rfl⟩
  | some m4b =>
    cases art? with
    | none => exact ⟨rfl, rfl⟩
    | some art =>
      simp only [organize_audiobooks]
      cases hemp : (m4b.filter (fun p => isM4b p.1)).isEmpty with
      | true => simp [hemp]
      | false =>
        simp only [hemp, Bool.false_eq_true, if_false]
        constructor
        · rw [organize_foldl_dry_dest]
          simp
        · simp

theorem cover_dry_frame (env : NetEnv) (cf : String) (lib : List Folder) :
    (process_folders env cf true (some lib)).folders = sortBy Folder.name lib ∧
    (process_folders env cf true (some lib)).events.filter isDownloadEvent = [] ∧
    (process_folders env cf true (some lib)).events.filter isSearchEvent =
      (process_folders env cf false (some lib)).events.filter isSearchEvent := by
  refine ⟨?_, ?_, ?_⟩
  · simp only [process_folders]
    rw [cover_foldl_dry_folders]
    simp
  · simp only [process_folders]
    exact cover_foldl_no_download env cf _ _ _ _ _ rfl
  · simp only [process_folders]
    exact cover_foldl_search_eq env cf _ _ _ _ _ _ _ _ _ rfl

/-! Destination existence is preserved by live Organizer steps. -/

theorem organize_step_dest_isSome (art : Dir) (dry : Bool) (st : OrgState)
    (item : String × FSFile) (h : st.dest.isSome = true) :
    (organize_step art dry st item).dest.isSome = true := by
  simp only [organize_step]
  split
  · split
    · exact h
    · cases dry with
      | true => simpa using h
      | false => simp
  · cases dry with
    | true => simpa using h
    | false => simp

theorem organize_foldl_dest_isSome (art : Dir) (dry : Bool)
    (items : List (String × FSFile)) (st : OrgState) (h : st.dest.isSome = true) :
    ((items.foldl (organize_step art dry) st).dest).isSome = true := by
  induction items generalizing st with
  | nil => exact h
  | cons i is ih =>
    simp only [List.foldl_cons]
    exact ih (organize_step art dry st i) (organize_step_dest_isSome art dry st i h)

/-- C6: after a live Mover run, a selected audio item no longer exists
at its source path and exists exactly once at the canonical destination
path inside its book folder. -/
theorem C6_move_destructive (srcRoot dstRoot : String) (src : Dir) (dst : Tree)
    (name : String) (f : FSFile)
    (hnd : (src.map Prod.fst).Nodup)
    (hmem : (name, f) ∈ src)
    (hm4b : isM4b name = true) :
    lookupKey ((move_audiobooks srcRoot dstRoot (some src) (some dst) false).src.getD [])
      name = none ∧
    lookupKey
      (getDir ((move_audiobooks srcRoot dstRoot (some src) (some dst) false).dst.getD [])
        (stem name)) name = some f ∧
    countKey
      (getDir ((move_audiobooks srcRoot dstRoot (some src) (some dst) false).dst.getD [])
        (stem name)) name = 1 := by
  have hmemf : (name, f) ∈ src.filter (fun p => isM4b p.1) :=
    List.mem_filter.mpr ⟨hmem, hm4b⟩
  have hnotempty : (src.filter (fun p => isM4b p.1)).isEmpty = false := by
    cases hcase : src.filter (fun p => isM4b p.1) with
    | nil =>
      rw [hcase] at hmemf
      cases hmemf
    | cons a l => rfl
  have hndf : ((src.filter (fun p => isM4b p.1)).map Prod.fst).Nodup :=
    hnd.sublist ((List.filter_sublist src).map Prod.fst)
  simp only [move_audiobooks, hnotempty, Bool.false_eq_true, if_false]
  exact mover_foldl_invariant dstRoot (src.filter (fun p => isM4b p.1)) _ name f hmemf hndf

/-- Witness for C6: the My Book scenario of the specification. -/
theorem C6_move_destructive_witness :
    (([("My Book.m4b", (⟨3, 9⟩ : FSFile))] : Dir).map Prod.fst).Nodup ∧
    ("My Book.m4b", (⟨3, 9⟩ : FSFile)) ∈ ([("My Book.m4b", ⟨3, 9⟩)] : Dir) ∧
    isM4b "My Book.m4b" = true ∧
    (lookupKey ((move_audiobooks "downloads" "plex"
        (some [("My Book.m4b", ⟨3, 9⟩)]) (some []) false).src.getD []) "My Book.m4b" = none ∧
     lookupKey (getDir ((move_audiobooks "downloads" "plex"
        (some [("My Book.m4b", ⟨3, 9⟩)]) (some []) false).dst.getD [])
        (stem "My Book.m4b")) "My Book.m4b" = some ⟨3, 9⟩ ∧
     countKey (getDir ((move_audiobooks "downloads" "plex"
        (some [("My Book.m4b", ⟨3, 9⟩)]) (some []) false).dst.getD [])
        (stem "My Book.m4b")) "My Book.m4b" = 1) :=
  ⟨by decide, by decide, by decide,
   C6_move_destructive "downloads" "plex" [("My Book.m4b", ⟨3, 9⟩)] [] "My Book.m4b" ⟨3, 9⟩
     (by decide) (by decide) (by decide)⟩

/-- C7 counterexample: on a one-item source, the dry-run log of the
Mover is not identical to the live-run log: dry-run announcement lines
replace the mutation lines and a final dry-run banner is appended. -/
theorem C7_counterexample :
    (move_audiobooks "downloads" "plex" (some [("My Book.m4b", ⟨3, 9⟩)]) (some []) true).log ≠
    (move_audiobooks "downloads" "plex" (some [("My Book.m4b", ⟨3, 9⟩)]) (some []) false).log
    := by decide

/-- C7 amended: a dry run of any workflow traverses the same items in
the same order as the live run, but performs no filesystem or network
mutation: the source and destination trees equal their pre-run state,
the resolver emits no download, and the provider queries are the same
as in a live run; the log narration differs only in that dry-run
announcement lines stand in for the mutation lines. -/
theorem C7_dry_run_frame (srcRoot dstRoot : String) (src? : Option Dir) (dst? : Option Tree)
    (m4b? art? : Option Dir) (dest? : Option Tree) (env : NetEnv) (cf : String)
    (lib : List Folder) :
    (move_audiobooks srcRoot dstRoot src? dst? true).src = src? ∧
    (move_audiobooks srcRoot dstRoot src? dst? true).dst = dst? ∧
    (move_audiobooks srcRoot dstRoot src? dst? true).processed =
      (move_audiobooks srcRoot dstRoot src? dst? false).processed ∧
    (organize_audiobooks m4b? art? dest? true).dest = dest? ∧
    (organize_audiobooks m4b? art? dest? true).items =
      (organize_audiobooks m4b? art? dest? false).items ∧
    (process_folders env cf true (some lib)).folders = sortBy Folder.name lib ∧
    (process_folders env cf true (some lib)).events.filter isDownloadEvent = [] ∧
    (process_folders env cf true (some lib)).events.filter isSearchEvent =
      (process_folders env cf false (some lib)).events.filter isSearchEvent :=
  ⟨(mover_dry_frame srcRoot dstRoot src? dst?).1,
   (mover_dry_frame srcRoot dstRoot src? dst?).2.1,
   (mover_dry_frame srcRoot dstRoot src? dst?).2.2,
   (organize_dry_frame m4b? art? dest?).1,
   (organize_dry_frame m4b? art? dest?).2,
   (cover_dry_frame env cf lib).1,
   (cover_dry_frame env cf lib).2.1,
   (cover_dry_frame env cf lib).2.2⟩

/-- C8: a missing required directory makes each workflow report its
fatal error and return with nothing processed and every tree of the
result unchanged; the embedding is total, so no exception escapes. -/
theorem C8_missing_directory (srcRoot dstRoot : String) (src : Dir) (dst? : Option Tree)
    (dry : Bool) (env : NetEnv) (cf : String) (m4b art : Dir) (dest? : Option Tree) :
    move_audiobooks srcRoot dstRoot none dst? dry =
      { src := none, dst := dst?,
        log := ["❌ Error: Source folder does not exist: " ++ srcRoot], processed := [] } ∧
    move_audiobooks srcRoot dstRoot (some src) none dry =
      { src := some src, dst := none,
        log := ["❌ Error: Destination folder does not exist: " ++ dstRoot],
        processed := [] } ∧
    process_folders env cf dry none =
      { folders := [], stats := coverStatsZero, events := [], outcomes := [],
        errorLogged := true } ∧
    organize_audiobooks none (some art) dest? dry =
      { dest := dest?, stats := ⟨0, 0, 0⟩, outcomes := [], items := [],
        errorLogged := true } ∧
    organize_audiobooks (some m4b) none dest? dry =
      { dest := dest?, stats := ⟨0, 0, 0⟩, outcomes := [], items := [],
        errorLogged := true } :=
  ⟨rfl, rfl, rfl, rfl, rfl⟩

/-- C10: the Mover and the Organizer iterate only over names matching
the .m4b glob, and a live Mover run leaves every non-matching source
entry exactly where it was. -/
theorem C10_only_m4b_selected (srcRoot dstRoot : String) (src : Dir) (dst : Tree)
    (other n1 n2 : String) (m4b? art? : Option Dir) (dest? : Option Tree)
    (hother : isM4b other = false)
    (h1 : n1 ∈ (move_audiobooks srcRoot dstRoot (some src) (some dst) false).processed)
    (h2 : n2 ∈ (organize_audiobooks m4b? art? dest? false).items) :
    isM4b n1 = true ∧ isM4b n2 = true ∧
    lookupKey ((move_audiobooks srcRoot dstRoot (some src) (some dst) false).src.getD [])
      other = lookupKey src other := by
  refine ⟨?_, ?_, ?_⟩
  · simp only [move_audiobooks] at h1
    cases hemp : (src.filter (fun p => isM4b p.1)).isEmpty with
    | true =>
      rw [hemp] at h1
      simp at h1
    | false =>
      rw [hemp] at h1
      simp only [Bool.false_eq_true, if_false] at h1
      obtain ⟨p, hp, hpe⟩ := List.mem_map.mp h1
      rw [← hpe]
      exact (List.mem_filter.mp hp).2
  · cases m4b? with
    | none => cases h2
    | some m4b =>
      cases art? with
      | none => cases h2
      | some art =>
        simp only [organize_audiobooks] at h2
        cases hemp : (m4b.filter (fun p => isM4b p.1)).isEmpty with
        | true =>
          rw [hemp] at h2
          simp at h2
        | false =>
          rw [hemp] at h2
          simp only [Bool.false_eq_true, if_false] at h2
          obtain ⟨p, hp, hpe⟩ := List.mem_map.mp h2
          rw [← hpe]
          exact (List.mem_filter.mp ((mem_sortBy (fun p => p.1) p _).mp hp)).2
  · simp only [move_audiobooks]
    cases hemp : (src.filter (fun p => isM4b p.1)).isEmpty with
    | true => simp [hemp]
    | false =>
      simp only [hemp, Bool.false_eq_true, if_false]
      refine mover_foldl_src_other dstRoot false _ _ other ?_
      intro j hj he
      have := (List.mem_filter.mp hj).2
      rw [he, hother] at this
      cases this

/-- Witness for C10: a source with one audio file and one stray file. -/
theorem C10_only_m4b_selected_witness :
    isM4b "notes.txt" = false ∧
    "A.m4b" ∈ (move_audiobooks "downloads" "plex"
      (some [("A.m4b", ⟨1, 1⟩), ("notes.txt", ⟨2, 2⟩)]) (some []) false).processed ∧
    "B.m4b" ∈ (organize_audiobooks (some [("B.m4b", ⟨1, 1⟩)]) (some [])
      (some []) false).items ∧
    (isM4b "A.m4b" = true ∧ isM4b "B.m4b" = true ∧
     lookupKey ((move_audiobooks "downloads" "plex"
        (some [("A.m4b", ⟨1, 1⟩), ("notes.txt", ⟨2, 2⟩)]) (some []) false).src.getD [])
        "notes.txt" =
      lookupKey [("A.m4b", ⟨1, 1⟩), ("notes.txt", ⟨2, 2⟩)] "notes.txt") :=
  ⟨by decide, by decide, by decide,
   C10_only_m4b_selected "downloads" "plex" [("A.m4b", ⟨1, 1⟩), ("notes.txt", ⟨2, 2⟩)] []
     "notes.txt" "A.m4b" "B.m4b" (some [("B.m4b", ⟨1, 1⟩)]) (some []) (some [])
     (by decide) (by decide) (by decide)⟩

/-- C4: when the destination audio file exists with the same byte size
the Organizer skips the item entirely (the resulting state equals the
old one except for the skipped counter and outcome, so no folder
creation, no copy, and no album-art lookup happens), and when the sizes
differ a live run re-copies, overwriting the destination file, and
counts a success. -/
theorem C4_duplicate_detection (art : Dir) (dry : Bool) (st : OrgState) (name : String)
    (f g : FSFile) (hm4b : isM4b name = true)
    (hex : lookupKey (getDir (st.dest.getD []) (stem name)) name = some g) :
    (g.size = f.size →
      organize_step art dry st (name, f) =
        { dest := st.dest, stats := { st.stats with skipped := st.stats.skipped + 1 },
          outcomes := st.outcomes ++ [(name, OrgOutcome.skipped)] }) ∧
    (g.size ≠ f.size → dry = false →
      lookupKey (getDir (((organize_step art dry st (name, f)).dest).getD []) (stem name))
        name = some f ∧
      (organize_step art dry st (name, f)).stats.success = st.stats.success + 1 ∧
      (organize_step art dry st (name, f)).outcomes =
        st.outcomes ++ [(name, OrgOutcome.success)]) := by
  constructor
  · intro hsz
    exact organize_step_skip art dry st name f g hex hsz
  · intro hsz hdry
    subst hdry
    refine organize_step_copy art st name f hm4b ?_
    intro g' hg'
    rw [hex] at hg'
    rw [← Option.some.inj hg']
    exact hsz

/-- Witness for C4: a destination already holding the audio file with a
matching size. -/
theorem C4_duplicate_detection_witness :
    isM4b "Book.m4b" = true ∧
    lookupKey (getDir (((⟨some [("Book", [("Book.m4b", ⟨10, 1⟩)])], ⟨0, 0, 0⟩, []⟩ :
        OrgState)).dest.getD []) (stem "Book.m4b")) "Book.m4b" = some ⟨10, 1⟩ ∧
    (((⟨10, 1⟩ : FSFile).size = (⟨10, 1⟩ : FSFile).size →
      organize_step [] false ⟨some [("Book", [("Book.m4b", ⟨10, 1⟩)])], ⟨0, 0, 0⟩, []⟩
          ("Book.m4b", ⟨10, 1⟩) =
        { dest := some [("Book", [("Book.m4b", ⟨10, 1⟩)])], stats := ⟨0, 1, 0⟩,
          outcomes := [("Book.m4b", OrgOutcome.skipped)] }) ∧
     ((⟨10, 1⟩ : FSFile).size ≠ (⟨10, 1⟩ : FSFile).size → false = false →
      lookupKey (getDir (((organize_step [] false
            ⟨some [("Book", [("Book.m4b", ⟨10, 1⟩)])], ⟨0, 0, 0⟩, []⟩
            ("Book.m4b", ⟨10, 1⟩)).dest).getD []) (stem "Book.m4b")) "Book.m4b" =
        some ⟨10, 1⟩ ∧
      (organize_step [] false ⟨some [("Book", [("Book.m4b", ⟨10, 1⟩)])], ⟨0, 0, 0⟩, []⟩
        ("Book.m4b", ⟨10, 1⟩)).stats.success = 1 ∧
      (organize_step [] false ⟨some [("Book", [("Book.m4b", ⟨10, 1⟩)])], ⟨0, 0, 0⟩, []⟩
        ("Book.m4b", ⟨10, 1⟩)).outcomes = [("Book.m4b", OrgOutcome.success)])) :=
  ⟨by decide, by decide,
   C4_duplicate_detection [] false ⟨some [("Book", [("Book.m4b", ⟨10, 1⟩)])], ⟨0, 0, 0⟩, []⟩
     "Book.m4b" ⟨10, 1⟩ ⟨10, 1⟩ (by decide) (by decide)⟩

/-- Core of the idempotence claim: with both sources present and a
destination tree, a second live Organizer run changes nothing and skips
every item. -/
theorem organize_live_twice (m4b art : Dir) (d0 : Tree)
    (hnd : (m4b.map Prod.fst).Nodup) :
    (organize_audiobooks (some m4b) (some art)
        (organize_audiobooks (some m4b) (some art) (some d0) false).dest false).dest =
      (organize_audiobooks (some m4b) (some art) (some d0) false).dest ∧
    (organize_audiobooks (some m4b) (some art)
        (organize_audiobooks (some m4b) (some art) (some d0) false).dest false).outcomes =
      (organize_audiobooks (some m4b) (some art)
          (organize_audiobooks (some m4b) (some art) (some d0) false).dest false).items.map
        (fun n => (n, OrgOutcome.skipped)) := by
  cases hemp : (m4b.filter (fun p => isM4b p.1)).isEmpty with
  | true =>
    have hr1 : (organize_audiobooks (some m4b) (some art) (some d0) false).dest = some d0 := by
      simp [organize_audiobooks, hemp]
    rw [hr1]
    refine ⟨hr1, ?_⟩
    simp [organize_audiobooks, hemp]
  | false =>
    have hfiles : ∀ p ∈ sortBy (fun p => p.1) (m4b.filter (fun p => isM4b p.1)),
        isM4b p.1 = true := by
      intro p hp
      exact (List.mem_filter.mp ((mem_sortBy (fun q => q.1) p _).mp hp)).2
    have hndsort : ((sortBy (fun p => p.1) (m4b.filter (fun p => isM4b p.1))).map
        Prod.fst).Nodup :=
      sortBy_map_nodup (fun p => p.1) Prod.fst _
        (hnd.sublist ((List.filter_sublist m4b).map Prod.fst))
    have hr1 : (organize_audiobooks (some m4b) (some art) (some d0) false).dest =
        ((sortBy (fun p => p.1) (m4b.filter (fun p => isM4b p.1))).foldl
          (organize_step art false)
          { dest := some d0, stats := ⟨0, 0, 0⟩, outcomes := [] }).dest := by
      simp [organize_audiobooks, hemp]
    have hsome := organize_foldl_dest_isSome art false
      (sortBy (fun p => p.1) (m4b.filter (fun p => isM4b p.1)))
      { dest := some d0, stats := ⟨0, 0, 0⟩, outcomes := [] } (by simp)
    obtain ⟨t1, ht1⟩ := Option.isSome_iff_exists.mp hsome
    have hr1' : (organize_audiobooks (some m4b) (some art) (some d0) false).dest = some t1 :=
      hr1.trans ht1
    have hall : ∀ p ∈ sortBy (fun p => p.1) (m4b.filter (fun p => isM4b p.1)),
        sizeMatched (some t1) p.1 p.2 := by
      intro p hp
      obtain ⟨pn, pf⟩ := p
      have hinv := organize_foldl_invariant art
        (sortBy (fun p => p.1) (m4b.filter (fun p => isM4b p.1)))
        { dest := some d0, stats := ⟨0, 0, 0⟩, outcomes := [] } pn pf hp hndsort
        (hfiles (pn, pf) hp)
      rw [ht1] at hinv
      exact hinv
    have hskip := organize_foldl_all_skip art
      (sortBy (fun p => p.1) (m4b.filter (fun p => isM4b p.1)))
      { dest := some t1, stats := ⟨0, 0, 0⟩, outcomes := [] } hall
    have hrun2 : (organize_audiobooks (some m4b) (some art) (some t1) false).dest =
        ((sortBy (fun p => p.1) (m4b.filter (fun p => isM4b p.1))).foldl
          (organize_step art false)
          { dest := some t1, stats := ⟨0, 0, 0⟩, outcomes := [] }).dest := by
      simp [organize_audiobooks, hemp]
    have hrun2dest : (organize_audiobooks (some m4b) (some art) (some t1) false).dest =
        some t1 := by
      rw [hrun2, hskip]
    have hrun2outcEq : (organize_audiobooks (some m4b) (some art) (some t1) false).outcomes =
        ((sortBy (fun p => p.1) (m4b.filter (fun p => isM4b p.1))).foldl
          (organize_step art false)
          { dest := some t1, stats := ⟨0, 0, 0⟩, outcomes := [] }).outcomes := by
      simp [organize_audiobooks, hemp]
    have hrun2outc : (organize_audiobooks (some m4b) (some art) (some t1) false).outcomes =
        (sortBy (fun p => p.1) (m4b.filter (fun p => isM4b p.1))).map
          (fun p => (p.1, OrgOutcome.skipped)) := by
      rw [hrun2outcEq, hskip]
      rfl
    have hrun2items : (organize_audiobooks (some m4b) (some art) (some t1) false).items =
        (sortBy (fun p => p.1) (m4b.filter (fun p => isM4b p.1))).map Prod.fst := by
      simp [organize_audiobooks, hemp]
    rw [hr1']
    refine ⟨hrun2dest, ?_⟩
    rw [hrun2outc, hrun2items, List.map_map]
    rfl

/-- C5: running the Organizer twice in live mode on an unchanged source
set is idempotent: the destination tree after the second run equals the
one after the first run, and the second run skips every item. -/
theorem C5_organizer_idempotent (m4b? art? : Option Dir) (dest? : Option Tree)
    (hnd : ((m4b?.getD []).map Prod.fst).Nodup) :
    (organize_audiobooks m4b? art?
        (organize_audiobooks m4b? art? dest? false).dest false).dest =
      (organize_audiobooks m4b? art? dest? false).dest ∧
    (organize_audiobooks m4b? art?
        (organize_audiobooks m4b? art? dest? false).dest false).outcomes =
      (organize_audiobooks m4b? art?
          (organize_audiobooks m4b? art? dest? false).dest false).items.map
        (fun n => (n, OrgOutcome.skipped)) := by
  cases m4b? with
  | none => exact ⟨rfl, rfl⟩
  | some m4b =>
    cases art? with
    | none => exact ⟨rfl, rfl⟩
    | some art =>
      have hnd' : (m4b.map Prod.fst).Nodup := hnd
      cases dest? with
      | none =>
        have heq : organize_audiobooks (some m4b) (some art) none false =
            organize_audiobooks (some m4b) (some art) (some []) false := rfl
        rw [heq]
        exact organize_live_twice m4b art [] hnd'
      | some t => exact organize_live_twice m4b art t hnd'

/-- Witness for C5: one audio file and one matching art file. -/
theorem C5_organizer_idempotent_witness :
    (((some [("A.m4b", (⟨5, 7⟩ : FSFile))] : Option Dir).getD []).map Prod.fst).Nodup ∧
    ((organize_audiobooks (some [("A.m4b", ⟨5, 7⟩)]) (some [("A.jpg", ⟨2, 2⟩)])
        (organize_audiobooks (some [("A.m4b", ⟨5, 7⟩)]) (some [("A.jpg", ⟨2, 2⟩)])
          (some []) false).dest false).dest =
      (organize_audiobooks (some [("A.m4b", ⟨5, 7⟩)]) (some [("A.jpg", ⟨2, 2⟩)])
        (some []) false).dest ∧
     (organize_audiobooks (some [("A.m4b", ⟨5, 7⟩)]) (some [("A.jpg", ⟨2, 2⟩)])
        (organize_audiobooks (some [("A.m4b", ⟨5, 7⟩)]) (some [("A.jpg", ⟨2, 2⟩)])
          (some []) false).dest false).outcomes =
      (organize_audiobooks (some [("A.m4b", ⟨5, 7⟩)]) (some [("A.jpg", ⟨2, 2⟩)])
          (organize_audiobooks (some [("A.m4b", ⟨5, 7⟩)]) (some [("A.jpg", ⟨2, 2⟩)])
            (some []) false).dest false).items.map (fun n => (n, OrgOutcome.skipped))) :=
  ⟨by decide,
   C5_organizer_idempotent (some [("A.m4b", ⟨5, 7⟩)]) (some [("A.jpg", ⟨2, 2⟩)]) (some [])
     (by decide)⟩

end Creation
